import Mathlib

/-!
Verification of the Scoped Storage Access Control Engine of the
aws-playground / s3-storage-for-3p project.

The repository ships the frontend client (`s3Service.ts`,
`credentialService` in `src/unnamed/part_022`), the shared types
(`src/unnamed/part_026`) and the infrastructure, while the backend engine
described by the spec (PrefixDeriver, AccessControlGate, CredentialBroker,
KeyLifecycleManager, UploadCoordinator) is not part of the source tree.
Those components are therefore modelled from the spec; the definitions
taken directly from repository source say so in their doc comments.
-/

instance {ε α : Type} [DecidableEq ε] [DecidableEq α] : DecidableEq (Except ε α) :=
  fun x y =>
    match x, y with
    | Except.ok a, Except.ok b =>
        if h : a = b then isTrue (by rw [h]) else isFalse (by simp [h])
    | Except.error e, Except.error f =>
        if h : e = f then isTrue (by rw [h]) else isFalse (by simp [h])
    | Except.ok _, Except.error _ => isFalse (by simp)
    | Except.error _, Except.ok _ => isFalse (by simp)

/-- Error taxonomy of the engine, from spec section 7. -/
inductive EngineError
  | invalidPrincipal
  | accessDenied
  | invalidDuration
  | credentialIssuanceFailed
  | keyNotFound
  | staleKeyCleanupFailed
  | partMismatch
  | sessionNotFound
  deriving DecidableEq, Repr

/-- Modelled from the spec: PrefixDeriver.derive (the backend implementing it
is not under src/).  Maps a principal to the canonical storage namespace
string of the form users/{principal}/ exactly as the backend snippet
reproduced in QUICKSTART.md does; pure and deterministic by construction,
and fails with InvalidPrincipal only on an empty (malformed) principal. -/
def derive (principal : String) : Except EngineError String :=
  if principal = "" then Except.error EngineError.invalidPrincipal
  else Except.ok ("users/" ++ principal ++ "/")

/-- Modelled from the spec: AccessControlGate.authorize (the backend
implementing it is not under src/).  Computes the caller's namespace via
derive and admits the target key precisely when it starts, character for
character, with that namespace string, trailing separator included. -/
def authorize (principal k : String) : Except EngineError Unit :=
  match derive principal with
  | Except.error e => Except.error e
  | Except.ok pre =>
      if pre.data.isPrefixOf k.data then Except.ok ()
      else Except.error EngineError.accessDenied

/-- Strings agreeing after appending the same front and back parts are equal. -/
theorem string_affix_injective (front back p q : String)
    (h : front ++ p ++ back = front ++ q ++ back) : p = q := by
  have hd : front.data ++ p.data ++ back.data = front.data ++ q.data ++ back.data := by
    have hdata := congrArg String.data h
    simpa [String.data_append] using hdata
  have hd2 : front.data ++ (p.data ++ back.data) = front.data ++ (q.data ++ back.data) := by
    simpa [List.append_assoc] using hd
  have h1 : p.data ++ back.data = q.data ++ back.data := List.append_cancel_left hd2
  have h2 : p.data = q.data := List.append_cancel_right h1
  cases p; cases q
  exact congrArg String.mk h2

/-- C2: derive is a pure function (hence deterministic and stable across
calls), distinct principals always derive distinct results, a non-empty
principal derives exactly the string users/{principal}/, and derive fails
with InvalidPrincipal exactly on the empty principal. -/
theorem derive_spec (p1 p2 : String) (hne : p1 ≠ p2) :
    derive p1 ≠ derive p2 ∧
    (derive p1 = Except.error EngineError.invalidPrincipal ↔ p1 = "") ∧
    (p1 ≠ "" → derive p1 = Except.ok ("users/" ++ p1 ++ "/")) := by
  refine ⟨?_, ?_, ?_⟩
  · intro h
    by_cases h1 : p1 = ""
    · by_cases h2 : p2 = ""
      · exact hne (h1.trans h2.symm)
      · simp [derive, h1, h2] at h
    · by_cases h2 : p2 = ""
      · simp [derive, h1, h2] at h
      · simp only [derive, if_neg h1, if_neg h2, Except.ok.injEq] at h
        exact hne (string_affix_injective "users/" "/" p1 p2 h)
  · constructor
    · intro h
      by_contra h1
      simp [derive, h1] at h
    · intro h; simp [derive, h]
  · intro h; simp [derive, h]

/-- C2 witness: the properties of derive_spec, instantiated at the distinct
principals alice and bob. -/
theorem derive_spec_witness :
    ("alice" : String) ≠ "bob" ∧
    (derive "alice" ≠ derive "bob" ∧
     (derive "alice" = Except.error EngineError.invalidPrincipal ↔ "alice" = "") ∧
     ("alice" ≠ "" → derive "alice" = Except.ok ("users/" ++ "alice" ++ "/"))) :=
  ⟨by decide, derive_spec "alice" "bob" (by decide)⟩

/-- C1: for a valid principal, authorize succeeds precisely when the target
key extends the derived namespace character for character; every other
target is rejected with AccessDenied; in particular the principal abc,
whose namespace is users/abc/, is denied the sibling key users/abc2/file. -/
theorem authorize_spec (p k : String) (hp : p ≠ "") :
    ∃ pre, derive p = Except.ok pre ∧
      (authorize p k = Except.ok () ↔ ∃ rest, pre.data ++ rest = k.data) ∧
      (¬ (∃ rest, pre.data ++ rest = k.data) →
        authorize p k = Except.error EngineError.accessDenied) ∧
      authorize "abc" "users/abc2/file" = Except.error EngineError.accessDenied := by
  have hder : derive p = Except.ok ("users/" ++ p ++ "/") := by
    unfold derive; rw [if_neg hp]
  have hauth : authorize p k =
      (if ("users/" ++ p ++ "/").data.isPrefixOf k.data then Except.ok ()
       else Except.error EngineError.accessDenied) := by
    unfold authorize; rw [hder]
  refine ⟨"users/" ++ p ++ "/", hder, ?_, ?_, by decide⟩
  · constructor
    · intro h
      rw [hauth] at h
      by_cases hpf : ("users/" ++ p ++ "/").data.isPrefixOf k.data
      · exact List.isPrefixOf_iff_prefix.mp hpf
      · rw [if_neg hpf] at h
        exact absurd h (by simp)
    · intro h
      have hpf : ("users/" ++ p ++ "/").data.isPrefixOf k.data :=
        List.isPrefixOf_iff_prefix.mpr h
      rw [hauth, if_pos hpf]
  · intro h
    have hpf : ¬ ("users/" ++ p ++ "/").data.isPrefixOf k.data = true := by
      intro hc
      exact h (List.isPrefixOf_iff_prefix.mp hc)
    rw [hauth, if_neg hpf]

/-- C1 witness: the authorize specification instantiated at principal abc
and the sibling key users/abc2/file. -/
theorem authorize_spec_witness :
    ("abc" : String) ≠ "" ∧
    (∃ pre, derive "abc" = Except.ok pre ∧
      (authorize "abc" "users/abc2/file" = Except.ok () ↔
        ∃ rest, pre.data ++ rest = ("users/abc2/file" : String).data) ∧
      (¬ (∃ rest, pre.data ++ rest = ("users/abc2/file" : String).data) →
        authorize "abc" "users/abc2/file" = Except.error EngineError.accessDenied) ∧
      authorize "abc" "users/abc2/file" = Except.error EngineError.accessDenied) :=
  ⟨by decide, authorize_spec "abc" "users/abc2/file" (by decide)⟩

/-- Session credential triple with absolute expiration, from spec section 3. -/
structure SessionCredential where
  accessKeyId : String
  secretAccessKey : String
  sessionToken : String
  expiration : Nat
  deriving DecidableEq, Repr

/-- Result of checking whether an engine call succeeded. -/
def callOk {α : Type} : Except EngineError α → Bool
  | Except.ok _ => true
  | Except.error _ => false

/-- Modelled from the spec: CredentialBroker.issueSessionCredentials (the
backend implementing it is not under src/).  Validates the requested
duration against the 900..43200 second window, signalling InvalidDuration
outside it, then derives the caller's namespace and delegates to the raw
issuer capability, represented by the issuer argument. -/
def issueSessionCredentials (issuer : String → Nat → SessionCredential)
    (principal : String) (durationSeconds : Nat) : Except EngineError SessionCredential :=
  if durationSeconds < 900 ∨ 43200 < durationSeconds then
    Except.error EngineError.invalidDuration
  else
    match derive principal with
    | Except.error e => Except.error e
    | Except.ok pre => Except.ok (issuer pre durationSeconds)

/-- C5: for a valid principal, issuing session credentials succeeds exactly
when 900 ≤ durationSeconds ≤ 43200, every out-of-range duration is
rejected with InvalidDuration, and in particular 43200 succeeds while 899
and 43201 fail. -/
theorem issueSessionCredentials_spec (issuer : String → Nat → SessionCredential)
    (p : String) (hp : p ≠ "") :
    (∀ d, callOk (issueSessionCredentials issuer p d) = true ↔ 900 ≤ d ∧ d ≤ 43200) ∧
    (∀ d, d < 900 ∨ 43200 < d →
      issueSessionCredentials issuer p d = Except.error EngineError.invalidDuration) ∧
    issueSessionCredentials issuer p 899 = Except.error EngineError.invalidDuration ∧
    issueSessionCredentials issuer p 43201 = Except.error EngineError.invalidDuration ∧
    callOk (issueSessionCredentials issuer p 43200) = true := by
  have hder : derive p = Except.ok ("users/" ++ p ++ "/") := by
    unfold derive; rw [if_neg hp]
  have hok : ∀ d, ¬ (d < 900 ∨ 43200 < d) →
      issueSessionCredentials issuer p d =
        Except.ok (issuer ("users/" ++ p ++ "/") d) := by
    intro d hd
    unfold issueSessionCredentials
    rw [if_neg hd, hder]
  have herr : ∀ d, d < 900 ∨ 43200 < d →
      issueSessionCredentials issuer p d = Except.error EngineError.invalidDuration := by
    intro d hd
    unfold issueSessionCredentials
    rw [if_pos hd]
  refine ⟨?_, herr, herr 899 (by omega), herr 43201 (by omega), ?_⟩
  · intro d
    constructor
    · intro h
      by_contra hrange
      rw [herr d (by omega)] at h
      simp [callOk] at h
    · intro h
      rw [hok d (by omega)]
      rfl
  · rw [hok 43200 (by omega)]
    rfl

/-- C5 witness: the duration window specification instantiated at a
concrete issuer and the principal u1. -/
theorem issueSessionCredentials_spec_witness :
    ("u1" : String) ≠ "" ∧
    ((∀ d, callOk (issueSessionCredentials (fun _ _ => ⟨"A", "S", "T", 0⟩) "u1" d) = true ↔
        900 ≤ d ∧ d ≤ 43200) ∧
     (∀ d, d < 900 ∨ 43200 < d →
       issueSessionCredentials (fun _ _ => ⟨"A", "S", "T", 0⟩) "u1" d =
         Except.error EngineError.invalidDuration) ∧
     issueSessionCredentials (fun _ _ => ⟨"A", "S", "T", 0⟩) "u1" 899 =
       Except.error EngineError.invalidDuration ∧
     issueSessionCredentials (fun _ _ => ⟨"A", "S", "T", 0⟩) "u1" 43201 =
       Except.error EngineError.invalidDuration ∧
     callOk (issueSessionCredentials (fun _ _ => ⟨"A", "S", "T", 0⟩) "u1" 43200) = true) :=
  ⟨by decide, issueSessionCredentials_spec (fun _ _ => ⟨"A", "S", "T", 0⟩) "u1" (by decide)⟩

/-- Status of a long-lived programmatic key, from src/unnamed/part_026
(IamAccessKey.status is the union Active | Inactive). -/
inductive KeyStatus
  | active
  | inactive
  deriving DecidableEq, Repr

/-- Server-side record of a programmatic key, secret included, held by the
raw IAM-equivalent capability of spec section 6. -/
structure StoredKey where
  accessKeyId : String
  secret : String
  createDate : Nat
  status : KeyStatus
  deriving DecidableEq, Repr

/-- Programmatic key as reported to the caller, mirroring IamAccessKey of
src/unnamed/part_026, with the secret optional so listings can omit it. -/
structure ProgrammaticKey where
  accessKeyId : String
  secretAccessKey : Option String
  createDate : Nat
  status : KeyStatus
  deriving DecidableEq, Repr

/-- View of a stored key that reveals the secret, used exactly once at
creation or rotation. -/
def keyWithSecret (k : StoredKey) : ProgrammaticKey :=
  { accessKeyId := k.accessKeyId
    secretAccessKey := some k.secret
    createDate := k.createDate
    status := k.status }

/-- View of a stored key with the secret omitted, used by listings. -/
def keyMetadata (k : StoredKey) : ProgrammaticKey :=
  { accessKeyId := k.accessKeyId
    secretAccessKey := none
    createDate := k.createDate
    status := k.status }

/-- Modelled from the spec: KeyLifecycleManager.list (the backend
implementing it is not under src/).  Returns metadata only: secrets are
always omitted in listings. -/
def listKeys (stored : List StoredKey) : List ProgrammaticKey :=
  stored.map keyMetadata

/-- Modelled from the spec: KeyLifecycleManager.create (the backend
implementing it is not under src/).  Creates the key and returns the full
credentials, secret included, exactly once. -/
def createKey (stored : List StoredKey) (fresh : StoredKey) :
    List StoredKey × ProgrammaticKey :=
  (fresh :: stored, keyWithSecret fresh)

/-- Outcome of a rotation: the freshly created key, and the optional
warning surfaced when deleting the old key failed. -/
structure RotateOutcome where
  newKey : ProgrammaticKey
  warning : Option EngineError
  deriving DecidableEq, Repr

/-- Modelled from the spec: KeyLifecycleManager.rotate (the backend
implementing it is not under src/).  Creates the new key first; only after
that creation succeeded is the old key deleted.  A creation failure leaves
the stored keys untouched and deletes nothing; a deletion failure after
creation still reports the new key as a success, together with the
StaleKeyCleanupFailed warning.  The two flags model failure of the raw
create and delete calls. -/
def rotate (stored : List StoredKey) (oldKeyId : String) (fresh : StoredKey)
    (createFails deleteFails : Bool) : List StoredKey × Except EngineError RotateOutcome :=
  if createFails then
    (stored, Except.error EngineError.credentialIssuanceFailed)
  else
    let afterCreate := fresh :: stored
    if deleteFails then
      (afterCreate,
       Except.ok { newKey := keyWithSecret fresh
                   warning := some EngineError.staleKeyCleanupFailed })
    else
      (afterCreate.filter (fun k => k.accessKeyId ≠ oldKeyId),
       Except.ok { newKey := keyWithSecret fresh, warning := none })

/-- C3: rotate creates the new key before deleting the old one — a failed
creation leaves the store untouched and deletes nothing — and when the
creation succeeded the new key is always returned as a success, is present
in the resulting store, and the store is never left empty, whether or not
the deletion of the old key fails; a deletion failure is surfaced exactly
as the StaleKeyCleanupFailed warning while the old key stays in place. -/
theorem rotate_spec (stored : List StoredKey) (oldKeyId : String) (fresh : StoredKey)
    (deleteFails : Bool) (hid : fresh.accessKeyId ≠ oldKeyId) :
    rotate stored oldKeyId fresh true deleteFails =
      (stored, Except.error EngineError.credentialIssuanceFailed) ∧
    (∃ outcome, (rotate stored oldKeyId fresh false deleteFails).2 = Except.ok outcome ∧
      outcome.newKey = keyWithSecret fresh ∧
      (outcome.warning = some EngineError.staleKeyCleanupFailed ↔ deleteFails = true)) ∧
    fresh ∈ (rotate stored oldKeyId fresh false deleteFails).1 ∧
    (rotate stored oldKeyId fresh false deleteFails).1 ≠ [] ∧
    (rotate stored oldKeyId fresh false true).1 = fresh :: stored ∧
    (∀ k ∈ (rotate stored oldKeyId fresh false false).1, k.accessKeyId ≠ oldKeyId) := by
  refine ⟨by unfold rotate; rw [if_pos rfl], ?_, ?_, ?_, by unfold rotate; simp, ?_⟩
  · cases deleteFails
    · exact ⟨{ newKey := keyWithSecret fresh, warning := none },
        by unfold rotate; simp, rfl, by simp⟩
    · exact ⟨{ newKey := keyWithSecret fresh
               warning := some EngineError.staleKeyCleanupFailed },
        by unfold rotate; simp, rfl, by simp⟩
  · cases deleteFails
    · unfold rotate
      simp [List.mem_filter, hid]
    · unfold rotate
      simp
  · cases deleteFails
    · unfold rotate
      simp only [Bool.false_eq_true, if_false, if_neg]
      intro hempty
      have : fresh ∈ ((fresh :: stored).filter (fun k => k.accessKeyId ≠ oldKeyId)) := by
        simp [List.mem_filter, hid]
      rw [hempty] at this
      exact absurd this (List.not_mem_nil fresh)
    · unfold rotate
      simp
  · intro k hk
    unfold rotate at hk
    simp only [Bool.false_eq_true, if_false] at hk
    exact of_decide_eq_true (List.mem_filter.mp hk).2

/-- C3 witness: the rotate specification at a concrete store holding one
old key, rotating it to a fresh key. -/
theorem rotate_spec_witness :
    (StoredKey.mk "AKIANEW" "s2" 1 KeyStatus.active).accessKeyId ≠ "AKIAOLD" ∧
    (rotate [⟨"AKIAOLD", "s1", 0, KeyStatus.active⟩] "AKIAOLD"
        ⟨"AKIANEW", "s2", 1, KeyStatus.active⟩ true false =
      ([⟨"AKIAOLD", "s1", 0, KeyStatus.active⟩],
        Except.error EngineError.credentialIssuanceFailed) ∧
    (∃ outcome, (rotate [⟨"AKIAOLD", "s1", 0, KeyStatus.active⟩] "AKIAOLD"
        ⟨"AKIANEW", "s2", 1, KeyStatus.active⟩ false false).2 = Except.ok outcome ∧
      outcome.newKey = keyWithSecret ⟨"AKIANEW", "s2", 1, KeyStatus.active⟩ ∧
      (outcome.warning = some EngineError.staleKeyCleanupFailed ↔ false = true)) ∧
    (⟨"AKIANEW", "s2", 1, KeyStatus.active⟩ : StoredKey) ∈
      (rotate [⟨"AKIAOLD", "s1", 0, KeyStatus.active⟩] "AKIAOLD"
        ⟨"AKIANEW", "s2", 1, KeyStatus.active⟩ false false).1 ∧
    (rotate [⟨"AKIAOLD", "s1", 0, KeyStatus.active⟩] "AKIAOLD"
        ⟨"AKIANEW", "s2", 1, KeyStatus.active⟩ false false).1 ≠ [] ∧
    (rotate [⟨"AKIAOLD", "s1", 0, KeyStatus.active⟩] "AKIAOLD"
        ⟨"AKIANEW", "s2", 1, KeyStatus.active⟩ false true).1 =
      ⟨"AKIANEW", "s2", 1, KeyStatus.active⟩ :: [⟨"AKIAOLD", "s1", 0, KeyStatus.active⟩] ∧
    (∀ k ∈ (rotate [⟨"AKIAOLD", "s1", 0, KeyStatus.active⟩] "AKIAOLD"
        ⟨"AKIANEW", "s2", 1, KeyStatus.active⟩ false false).1,
      k.accessKeyId ≠ "AKIAOLD")) :=
  ⟨by decide, rotate_spec [⟨"AKIAOLD", "s1", 0, KeyStatus.active⟩] "AKIAOLD"
    ⟨"AKIANEW", "s2", 1, KeyStatus.active⟩ false (by decide)⟩

/-- C9: listings never contain a secret — every entry of every listing has
secretAccessKey omitted — while creation returns the secret exactly once,
and listing again after a creation still reveals no secret. -/
theorem listKeys_never_reveals_secret (stored : List StoredKey) (fresh : StoredKey) :
    (∀ m ∈ listKeys stored, m.secretAccessKey = none) ∧
    ((createKey stored fresh).2).secretAccessKey = some fresh.secret ∧
    (∀ m ∈ listKeys (createKey stored fresh).1, m.secretAccessKey = none) := by
  refine ⟨?_, rfl, ?_⟩
  · intro m hm
    obtain ⟨k, _, hk⟩ := List.mem_map.mp hm
    rw [← hk]
    rfl
  · intro m hm
    obtain ⟨k, _, hk⟩ := List.mem_map.mp hm
    rw [← hk]
    rfl

/-- Embeds credentialService.getTemporaryCredentials from
src/unnamed/part_022: the request body carries durationSeconds computed by
the JavaScript expression durationSeconds || 3600, which substitutes 3600
when the argument is undefined (none) or the falsy number 0. -/
def requestDurationSeconds : Option Nat → Nat
  | none => 3600
  | some v => if v = 0 then 3600 else v

/-- C10: with no explicit duration (undefined) or a duration of 0, the
request sent to the credential endpoint carries durationSeconds = 3600,
while any non-zero duration is passed through unchanged. -/
theorem requestDurationSeconds_default :
    requestDurationSeconds none = 3600 ∧
    requestDurationSeconds (some 0) = 3600 ∧
    (∀ v, v ≠ 0 → requestDurationSeconds (some v) = v) := by
  refine ⟨rfl, rfl, ?_⟩
  intro v hv
  simp [requestDurationSeconds, hv]

/-- State of one multipart upload session, from spec section 4.6: a session
accumulates (partNumber, etag) pairs until it is completed or aborted. -/
inductive SessionRecord
  | accumulating (k : String) (parts : List (Nat × String))
  | completed
  | aborted
  deriving DecidableEq, Repr

/-- Session store of the UploadCoordinator, keyed by uploadId. -/
abbrev Coordinator : Type := List (String × SessionRecord)

/-- Look up the session recorded for an uploadId. -/
def lookupSession : Coordinator → String → Option SessionRecord
  | [], _ => none
  | e :: t, u => if e.1 = u then some e.2 else lookupSession t u

/-- Replace the session recorded for an uploadId, leaving others alone. -/
def setSession : Coordinator → String → SessionRecord → Coordinator
  | [], _, _ => []
  | e :: t, u, r => if e.1 = u then (e.1, r) :: t else e :: setSession t u r

/-- The etag recorded against a part number, if any. -/
def getPart : List (Nat × String) → Nat → Option String
  | [], _ => none
  | q :: t, n => if q.1 = n then some q.2 else getPart t n

/-- Record an etag against a part number, overwriting any previous entry
for that part number and leaving all other part numbers untouched. -/
def setPart : List (Nat × String) → Nat → String → List (Nat × String)
  | [], n, etag => [(n, etag)]
  | q :: t, n, etag => if q.1 = n then (n, etag) :: t else q :: setPart t n etag

/-- Order-independent equality of two (partNumber, etag) part lists, read
as sets. -/
def pairsMatch (supplied recorded : List (Nat × String)) : Bool :=
  supplied.all (fun q => decide (q ∈ recorded)) &&
    recorded.all (fun q => decide (q ∈ supplied))

theorem lookupSession_set (c : Coordinator) (u : String) (r s : SessionRecord)
    (h : lookupSession c u = some s) :
    lookupSession (setSession c u r) u = some r := by
  induction c with
  | nil => simp [lookupSession] at h
  | cons e t ih =>
    by_cases he : e.1 = u
    · rw [setSession, if_pos he, lookupSession, if_pos he]
    · rw [lookupSession, if_neg he] at h
      rw [setSession, if_neg he, lookupSession, if_neg he]
      exact ih h

theorem getPart_setPart_same (ps : List (Nat × String)) (n : Nat) (etag : String) :
    getPart (setPart ps n etag) n = some etag := by
  induction ps with
  | nil => rw [setPart, getPart, if_pos rfl]
  | cons q t ih =>
    by_cases hq : q.1 = n
    · rw [setPart, if_pos hq, getPart, if_pos rfl]
    · rw [setPart, if_neg hq, getPart, if_neg hq]
      exact ih

theorem getPart_setPart_ne (ps : List (Nat × String)) (n m : Nat) (etag : String)
    (hm : m ≠ n) : getPart (setPart ps n etag) m = getPart ps m := by
  induction ps with
  | nil =>
    rw [setPart, getPart, getPart, if_neg (fun h => hm h.symm), getPart]
  | cons q t ih =>
    by_cases hq : q.1 = n
    · have hqm : ¬ q.1 = m := by rw [hq]; exact fun h => hm h.symm
      rw [setPart, if_pos hq, getPart, if_neg (fun h : n = m => hm h.symm),
        getPart, if_neg hqm]
    · by_cases hqm : q.1 = m
      · rw [setPart, if_neg hq, getPart, if_pos hqm, getPart, if_pos hqm]
      · rw [setPart, if_neg hq, getPart, if_neg hqm, getPart, if_neg hqm]
        exact ih

theorem pairsMatch_iff (a b : List (Nat × String)) :
    pairsMatch a b = true ↔ (∀ q, q ∈ a ↔ q ∈ b) := by
  unfold pairsMatch
  simp only [Bool.and_eq_true, List.all_eq_true, decide_eq_true_eq]
  constructor
  · rintro ⟨h1, h2⟩ q
    exact ⟨fun hq => h1 q hq, fun hq => h2 q hq⟩
  · intro h
    exact ⟨fun q hq => (h q).mp hq, fun q hq => (h q).mpr hq⟩

/-- Modelled from the spec: UploadCoordinator.uploadPart (the backend
implementing it is not under src/; s3Service.uploadPart in
src/s3-storage-for-3p/frontend/src/services/s3Service.ts is only the HTTP
client).  The session for the uploadId must exist with a matching key; the
etag argument stands for the etag the backing multipart primitive returns
for the uploaded data, and it is stored against the part number,
overwriting any earlier entry for that part number. -/
def uploadPart (c : Coordinator) (k u : String) (n : Nat) (etag : String) :
    Except EngineError String × Coordinator :=
  match lookupSession c u with
  | some (SessionRecord.accumulating sk ps) =>
      if sk = k then
        (Except.ok etag,
         setSession c u (SessionRecord.accumulating sk (setPart ps n etag)))
      else (Except.error EngineError.sessionNotFound, c)
  | _ => (Except.error EngineError.sessionNotFound, c)

/-- Modelled from the spec: UploadCoordinator.complete (the backend
implementing it is not under src/).  Succeeds only when the supplied part
list is non-empty and matches the recorded pairs order-independently;
a mismatch signals PartMismatch and leaves the store untouched, success
transitions the session to Completed and discards its accumulated parts. -/
def complete (c : Coordinator) (k u : String) (supplied : List (Nat × String)) :
    Except EngineError String × Coordinator :=
  match lookupSession c u with
  | some (SessionRecord.accumulating sk ps) =>
      if sk = k then
        if supplied ≠ [] ∧ pairsMatch supplied ps = true then
          (Except.ok k, setSession c u SessionRecord.completed)
        else (Except.error EngineError.partMismatch, c)
      else (Except.error EngineError.sessionNotFound, c)
  | _ => (Except.error EngineError.sessionNotFound, c)

/-- Modelled from the spec: UploadCoordinator.abort (the backend
implementing it is not under src/).  Transitions an accumulating session
to Aborted; aborting a session that is already aborted or completed
returns success without touching the store. -/
def abort (c : Coordinator) (k u : String) : Except EngineError Unit × Coordinator :=
  match lookupSession c u with
  | some (SessionRecord.accumulating sk _) =>
      if sk = k then (Except.ok (), setSession c u SessionRecord.aborted)
      else (Except.error EngineError.sessionNotFound, c)
  | some SessionRecord.completed => (Except.ok (), c)
  | some SessionRecord.aborted => (Except.ok (), c)
  | none => (Except.error EngineError.sessionNotFound, c)

/-- C6: retrying a part number overwrites the previously recorded etag, so
after two uploadPart calls for the same part number the session stores only
the second etag, both calls succeed, and entries for every other part
number are untouched. -/
theorem uploadPart_retry (c : Coordinator) (k u : String) (ps : List (Nat × String))
    (n m : Nat) (e1 e2 : String)
    (h : lookupSession c u = some (SessionRecord.accumulating k ps)) (hm : m ≠ n) :
    (uploadPart c k u n e1).1 = Except.ok e1 ∧
    (uploadPart (uploadPart c k u n e1).2 k u n e2).1 = Except.ok e2 ∧
    ∃ ps2,
      lookupSession (uploadPart (uploadPart c k u n e1).2 k u n e2).2 u =
        some (SessionRecord.accumulating k ps2) ∧
      getPart ps2 n = some e2 ∧
      getPart ps2 m = getPart ps m := by
  have h1 : uploadPart c k u n e1 =
      (Except.ok e1, setSession c u (SessionRecord.accumulating k (setPart ps n e1))) := by
    unfold uploadPart; rw [h]; simp
  have hl1 : lookupSession (setSession c u (SessionRecord.accumulating k (setPart ps n e1))) u
      = some (SessionRecord.accumulating k (setPart ps n e1)) :=
    lookupSession_set c u _ _ h
  have h2 : uploadPart (setSession c u (SessionRecord.accumulating k (setPart ps n e1))) k u n e2 =
      (Except.ok e2,
       setSession (setSession c u (SessionRecord.accumulating k (setPart ps n e1))) u
         (SessionRecord.accumulating k (setPart (setPart ps n e1) n e2))) := by
    unfold uploadPart; rw [hl1]; simp
  have hl2 :
      lookupSession
        (setSession (setSession c u (SessionRecord.accumulating k (setPart ps n e1))) u
          (SessionRecord.accumulating k (setPart (setPart ps n e1) n e2))) u =
      some (SessionRecord.accumulating k (setPart (setPart ps n e1) n e2)) :=
    lookupSession_set _ u _ _ hl1
  refine ⟨by rw [h1], ?_, setPart (setPart ps n e1) n e2, ?_,
    getPart_setPart_same _ _ _, ?_⟩
  · rw [h1, h2]
  · rw [h1, h2]
    exact hl2
  · rw [getPart_setPart_ne _ _ _ _ hm, getPart_setPart_ne _ _ _ _ hm]

/-- C6 witness: the retry property at a one-session store, retrying part 2
with a different payload while part 1 stays untouched. -/
theorem uploadPart_retry_witness :
    lookupSession [("up1", SessionRecord.accumulating "users/u1/f" [(1, "E1")])] "up1" =
      some (SessionRecord.accumulating "users/u1/f" [(1, "E1")]) ∧
    (1 : Nat) ≠ 2 ∧
    ((uploadPart [("up1", SessionRecord.accumulating "users/u1/f" [(1, "E1")])]
        "users/u1/f" "up1" 2 "A").1 = Except.ok "A" ∧
     (uploadPart (uploadPart [("up1", SessionRecord.accumulating "users/u1/f" [(1, "E1")])]
        "users/u1/f" "up1" 2 "A").2 "users/u1/f" "up1" 2 "B").1 = Except.ok "B" ∧
     ∃ ps2,
       lookupSession (uploadPart (uploadPart
           [("up1", SessionRecord.accumulating "users/u1/f" [(1, "E1")])]
           "users/u1/f" "up1" 2 "A").2 "users/u1/f" "up1" 2 "B").2 "up1" =
         some (SessionRecord.accumulating "users/u1/f" ps2) ∧
       getPart ps2 2 = some "B" ∧
       getPart ps2 1 = getPart [(1, "E1")] 1) :=
  ⟨by decide, by decide,
   uploadPart_retry [("up1", SessionRecord.accumulating "users/u1/f" [(1, "E1")])]
     "users/u1/f" "up1" [(1, "E1")] 2 1 "A" "B" (by decide) (by decide)⟩

/-- C4: against an accumulating session, complete succeeds precisely when
the supplied part list is non-empty and agrees with the recorded pairs as
a set, order-independently; any mismatch yields PartMismatch with the
store — hence the accumulating session — unchanged, and success
transitions the session to Completed, discarding its parts. -/
theorem complete_spec (c : Coordinator) (k u : String)
    (ps supplied : List (Nat × String))
    (h : lookupSession c u = some (SessionRecord.accumulating k ps)) :
    ((complete c k u supplied).1 = Except.ok k ↔
      supplied ≠ [] ∧ (∀ q, q ∈ supplied ↔ q ∈ ps)) ∧
    (¬ (supplied ≠ [] ∧ (∀ q, q ∈ supplied ↔ q ∈ ps)) →
      complete c k u supplied = (Except.error EngineError.partMismatch, c)) ∧
    (supplied ≠ [] ∧ (∀ q, q ∈ supplied ↔ q ∈ ps) →
      lookupSession (complete c k u supplied).2 u = some SessionRecord.completed) := by
  have hred : complete c k u supplied =
      (if supplied ≠ [] ∧ pairsMatch supplied ps = true then
        (Except.ok k, setSession c u SessionRecord.completed)
       else (Except.error EngineError.partMismatch, c)) := by
    unfold complete; rw [h]; simp
  refine ⟨⟨?_, ?_⟩, ?_, ?_⟩
  · intro hok
    by_cases hcond : supplied ≠ [] ∧ pairsMatch supplied ps = true
    · exact ⟨hcond.1, (pairsMatch_iff _ _).mp hcond.2⟩
    · rw [hred, if_neg hcond] at hok
      exact absurd hok (by simp)
  · rintro ⟨hne, hset⟩
    rw [hred, if_pos ⟨hne, (pairsMatch_iff _ _).mpr hset⟩]
  · intro hnot
    have hcond : ¬ (supplied ≠ [] ∧ pairsMatch supplied ps = true) := by
      intro hc
      exact hnot ⟨hc.1, (pairsMatch_iff _ _).mp hc.2⟩
    rw [hred, if_neg hcond]
  · rintro ⟨hne, hset⟩
    rw [hred, if_pos ⟨hne, (pairsMatch_iff _ _).mpr hset⟩]
    exact lookupSession_set c u _ _ h

/-- C4 witness: the completion specification at a one-session store whose
recorded parts are part 1 and part 2, supplied here in the other order. -/
theorem complete_spec_witness :
    lookupSession [("up1", SessionRecord.accumulating "users/u1/f" [(1, "E1"), (2, "E2")])]
        "up1" =
      some (SessionRecord.accumulating "users/u1/f" [(1, "E1"), (2, "E2")]) ∧
    (((complete [("up1", SessionRecord.accumulating "users/u1/f" [(1, "E1"), (2, "E2")])]
        "users/u1/f" "up1" [(2, "E2"), (1, "E1")]).1 = Except.ok "users/u1/f" ↔
      [(2, "E2"), (1, "E1")] ≠ ([] : List (Nat × String)) ∧
        (∀ q, q ∈ [(2, "E2"), (1, "E1")] ↔ q ∈ [(1, "E1"), (2, "E2")])) ∧
    (¬ ([(2, "E2"), (1, "E1")] ≠ ([] : List (Nat × String)) ∧
        (∀ q, q ∈ [(2, "E2"), (1, "E1")] ↔ q ∈ [(1, "E1"), (2, "E2")])) →
      complete [("up1", SessionRecord.accumulating "users/u1/f" [(1, "E1"), (2, "E2")])]
          "users/u1/f" "up1" [(2, "E2"), (1, "E1")] =
        (Except.error EngineError.partMismatch,
         [("up1", SessionRecord.accumulating "users/u1/f" [(1, "E1"), (2, "E2")])])) ∧
    ([(2, "E2"), (1, "E1")] ≠ ([] : List (Nat × String)) ∧
        (∀ q, q ∈ [(2, "E2"), (1, "E1")] ↔ q ∈ [(1, "E1"), (2, "E2")]) →
      lookupSession
        (complete [("up1", SessionRecord.accumulating "users/u1/f" [(1, "E1"), (2, "E2")])]
          "users/u1/f" "up1" [(2, "E2"), (1, "E1")]).2 "up1" =
        some SessionRecord.completed)) :=
  ⟨by decide,
   complete_spec [("up1", SessionRecord.accumulating "users/u1/f" [(1, "E1"), (2, "E2")])]
     "users/u1/f" "up1" [(1, "E1"), (2, "E2")] [(2, "E2"), (1, "E1")] (by decide)⟩

/-- C7: abort is idempotent — aborting an accumulating session succeeds,
aborting again succeeds and is a no-op, and aborting a session that is
already aborted or already completed succeeds without side effects. -/
theorem abort_idempotent (c : Coordinator) (k u : String) (ps : List (Nat × String))
    (h : lookupSession c u = some (SessionRecord.accumulating k ps)) :
    (abort c k u).1 = Except.ok () ∧
    abort (abort c k u).2 k u = (Except.ok (), (abort c k u).2) ∧
    (∀ c2, lookupSession c2 u = some SessionRecord.aborted →
      abort c2 k u = (Except.ok (), c2)) ∧
    (∀ c2, lookupSession c2 u = some SessionRecord.completed →
      abort c2 k u = (Except.ok (), c2)) := by
  have hab : abort c k u = (Except.ok (), setSession c u SessionRecord.aborted) := by
    unfold abort; rw [h]; simp
  have haborted : ∀ c2, lookupSession c2 u = some SessionRecord.aborted →
      abort c2 k u = (Except.ok (), c2) := by
    intro c2 h2
    unfold abort; rw [h2]
  have hcompleted : ∀ c2, lookupSession c2 u = some SessionRecord.completed →
      abort c2 k u = (Except.ok (), c2) := by
    intro c2 h2
    unfold abort; rw [h2]
  have hl : lookupSession (setSession c u SessionRecord.aborted) u =
      some SessionRecord.aborted :=
    lookupSession_set c u _ _ h
  refine ⟨by rw [hab], ?_, haborted, hcompleted⟩
  rw [hab]
  exact haborted _ hl

/-- C7 witness: abort idempotence at a one-session store. -/
theorem abort_idempotent_witness :
    lookupSession [("up1", SessionRecord.accumulating "users/u1/f" [(1, "E1")])] "up1" =
      some (SessionRecord.accumulating "users/u1/f" [(1, "E1")]) ∧
    ((abort [("up1", SessionRecord.accumulating "users/u1/f" [(1, "E1")])]
        "users/u1/f" "up1").1 = Except.ok () ∧
     abort (abort [("up1", SessionRecord.accumulating "users/u1/f" [(1, "E1")])]
        "users/u1/f" "up1").2 "users/u1/f" "up1" =
       (Except.ok (),
        (abort [("up1", SessionRecord.accumulating "users/u1/f" [(1, "E1")])]
          "users/u1/f" "up1").2) ∧
     (∀ c2, lookupSession c2 "up1" = some SessionRecord.aborted →
       abort c2 "users/u1/f" "up1" = (Except.ok (), c2)) ∧
     (∀ c2, lookupSession c2 "up1" = some SessionRecord.completed →
       abort c2 "users/u1/f" "up1" = (Except.ok (), c2))) :=
  ⟨by decide,
   abort_idempotent [("up1", SessionRecord.accumulating "users/u1/f" [(1, "E1")])]
     "users/u1/f" "up1" [(1, "E1")] (by decide)⟩

/-- Outcome of a batch delete: the keys removed and the per-key failures
with their individual error kinds, mirroring the response shape of
s3Service.deleteMultipleObjects in
src/s3-storage-for-3p/frontend/src/services/s3Service.ts. -/
structure DeleteManyResult where
  deleted : List String
  errors : List (String × EngineError)
  deriving DecidableEq, Repr

/-- Modelled from the spec: the per-key check of ObjectCatalog.deleteMany
(the backend implementing it is not under src/).  A key must pass
AccessControlGate, then exist in the store; out-of-prefix keys fail with
AccessDenied and missing keys with KeyNotFound. -/
def deleteKeyCheck (store : List String) (principal target : String) :
    Except EngineError Unit :=
  match authorize principal target with
  | Except.error e => Except.error e
  | Except.ok _ =>
      if target ∈ store then Except.ok () else Except.error EngineError.keyNotFound

/-- Modelled from the spec: ObjectCatalog.deleteMany (the backend
implementing it is not under src/).  Every key is checked independently;
passing keys are collected in deleted, each failing key is reported in
errors with its own error kind, and no failure aborts the batch. -/
def deleteMany (store : List String) (principal : String) (keys : List String) :
    DeleteManyResult :=
  { deleted := keys.filterMap (fun target =>
      match deleteKeyCheck store principal target with
      | Except.ok _ => some target
      | Except.error _ => none)
    errors := keys.filterMap (fun target =>
      match deleteKeyCheck store principal target with
      | Except.ok _ => none
      | Except.error e => some (target, e)) }

/-- C8: deleteMany authorizes each key independently and partially
succeeds — every deleted key passed the gate and existed in the store,
every reported error carries that key's own failure kind, every requested
key lands in exactly one of the two lists — and on the spec's concrete
scenario principal u1 deletes users/u1/a while users/u2/b is reported back
with AccessDenied. -/
theorem deleteMany_spec (store : List String) (principal : String) (keys : List String) :
    (∀ target ∈ (deleteMany store principal keys).deleted,
      authorize principal target = Except.ok () ∧ target ∈ store) ∧
    (∀ er ∈ (deleteMany store principal keys).errors,
      deleteKeyCheck store principal er.1 = Except.error er.2) ∧
    (∀ target ∈ keys, target ∈ (deleteMany store principal keys).deleted ∨
      ∃ e, (target, e) ∈ (deleteMany store principal keys).errors) ∧
    deleteMany ["users/u1/a", "users/u2/b"] "u1" ["users/u1/a", "users/u2/b"] =
      { deleted := ["users/u1/a"]
        errors := [("users/u2/b", EngineError.accessDenied)] } := by
  refine ⟨?_, ?_, ?_, by decide⟩
  · intro target ht
    simp only [deleteMany, List.mem_filterMap] at ht
    obtain ⟨a, ha, hmatch⟩ := ht
    cases hdc : deleteKeyCheck store principal a with
    | ok v =>
      rw [hdc] at hmatch
      simp only [Option.some.injEq] at hmatch
      subst hmatch
      unfold deleteKeyCheck at hdc
      cases hauth : authorize principal a with
      | error e =>
        rw [hauth] at hdc
        exact absurd hdc (by simp)
      | ok w =>
        cases w
        refine ⟨rfl, ?_⟩
        rw [hauth] at hdc
        by_cases hmem : a ∈ store
        · exact hmem
        · rw [if_neg hmem] at hdc
          exact absurd hdc (by simp)
    | error e =>
      rw [hdc] at hmatch
      exact absurd hmatch (by simp)
  · intro er her
    simp only [deleteMany, List.mem_filterMap] at her
    obtain ⟨a, ha, hmatch⟩ := her
    cases hdc : deleteKeyCheck store principal a with
    | ok v =>
      rw [hdc] at hmatch
      exact absurd hmatch (by simp)
    | error e =>
      rw [hdc] at hmatch
      simp only [Option.some.injEq] at hmatch
      rw [← hmatch]
      exact hdc
  · intro target ht
    cases hdc : deleteKeyCheck store principal target with
    | ok v =>
      left
      simp only [deleteMany, List.mem_filterMap]
      exact ⟨target, ht, by rw [hdc]⟩
    | error e =>
      right
      refine ⟨e, ?_⟩
      simp only [deleteMany, List.mem_filterMap]
      exact ⟨target, ht, by rw [hdc]⟩
